import Mathlib

/-!
Shallow embedding of `src/06-objects-tasks.js`.

The file under verification defines:
  * `Rectangle(width, height)` — a factory returning `{ width, height, getArea() }`;
  * `class CssBuilder` — a fluent CSS-selector builder with per-category
    string fields (`el.tag`, `el.id`, `el.class`, `el.attr`, `el.pseudoClass`,
    `el.pseudoElement`), a rank tracker `type`, a `combinedString` slot, a
    `checkType` guard throwing order/uniqueness errors, `combine` and
    `stringify`;
  * a facade object `cssSelectorBuilder` whose entry points allocate a fresh
    `CssBuilder` and perform one category call (or `combine`) on it.

JavaScript objects are mutable and methods throw; we embed each method as a
function from the receiver's state to `Except (CssError × CssBuilder) CssBuilder`.
The error value carries the receiver's state at the throw site.  In the source
every `throw` (both are inside `checkType`) happens before any field write of
the current call, so the state at the throw site is the entry state: the
embedding records exactly that program point.  `stringify` and `combine` never
throw; they are embedded as pure state-passing functions returning the string
result together with the updated receiver (and, for `combine`, the updated
operands, since `combine` calls `stringify` on both of them).
-/

namespace CoreJs

/-- Source `Rectangle` returns a plain object with `width`, `height` and `getArea`.
Its `getArea` computes `this.width * this.height`; we model the returned
object as a structure and the method as a function on it.  JS numbers are
modelled as integers here; the claims are purely structural. -/
structure RectObj where
  width : Int
  height : Int
deriving DecidableEq, Repr

def Rectangle (width height : Int) : RectObj :=
  { width := width, height := height }

def RectObj.getArea (r : RectObj) : Int :=
  r.width * r.height

/-- The two error strings thrown by `CssBuilder.checkType`.  The source throws
plain message strings (`this.uniqueError`, `this.orderError`); we model them
as a two-element error kind. -/
inductive CssError where
  | uniqueError
  | orderError
deriving DecidableEq, Repr

/-- The `this.el` record of `CssBuilder`: six per-category string fields, in
the key insertion order of the constructor (which is the order
`Object.values(this.el)` enumerates them in `stringify`). -/
structure El where
  tag : String
  id : String
  «class» : String
  attr : String
  pseudoClass : String
  pseudoElement : String
deriving DecidableEq, Repr

/-- The `el` value installed by the `CssBuilder` constructor: every field `''`. -/
def El.empty : El :=
  { tag := "", id := "", «class» := "", attr := "", pseudoClass := "",
    pseudoElement := "" }

/-- Source expression `Object.values(this.el).join('')`: concatenation of the six fields in key
insertion order. -/
def El.join (e : El) : String :=
  e.tag ++ e.id ++ e.«class» ++ e.attr ++ e.pseudoClass ++ e.pseudoElement

/-- The mutable state of a `CssBuilder` instance: `this.el`, `this.type`
(the rank of the most recent successful category call, `0` initially) and
`this.combinedString`.  The two error-message strings stored on the instance
are constants and are represented by `CssError` instead. -/
structure CssBuilder where
  el : El
  type : Nat
  combinedString : String
deriving DecidableEq, Repr

/-- Source constructor call `new CssBuilder()`. -/
def CssBuilder.init : CssBuilder :=
  { el := El.empty, type := 0, combinedString := "" }

/-- Result of a category call: either the updated receiver, or a thrown error
paired with the receiver's state at the throw site. -/
abbrev CssResult := Except (CssError × CssBuilder) CssBuilder

/-- Source `checkType(type)`: throw `orderError` if `type < this.type`, throw
`uniqueError` if `type === this.type && [1,2,6].includes(type)`, otherwise
set `this.type = type`.  Both throws precede the write to `this.type`, so the
state carried by the error is the entry state. -/
def CssBuilder.checkType (type : Nat) (b : CssBuilder) : CssResult :=
  if type < b.type then .error (.orderError, b)
  else if type = b.type ∧ (type = 1 ∨ type = 2 ∨ type = 6) then
    .error (.uniqueError, b)
  else .ok { b with type := type }

/-- Source `element(value)`: `checkType(1); this.el.tag = value; return this`. -/
def CssBuilder.element (value : String) (b : CssBuilder) : CssResult :=
  match b.checkType 1 with
  | .error e => .error e
  | .ok b => .ok { b with el := { b.el with tag := value } }

/-- Source `id(value)`: `checkType(2); this.el.id = '#' + value; return this`. -/
def CssBuilder.id (value : String) (b : CssBuilder) : CssResult :=
  match b.checkType 2 with
  | .error e => .error e
  | .ok b => .ok { b with el := { b.el with id := "#" ++ value } }

/-- Source `class(value)`: `checkType(3); this.el.class += '.' + value; return this`. -/
def CssBuilder.«class» (value : String) (b : CssBuilder) : CssResult :=
  match b.checkType 3 with
  | .error e => .error e
  | .ok b => .ok { b with el := { b.el with «class» := b.el.«class» ++ "." ++ value } }

/-- Source `attr(value)`: `checkType(4); this.el.attr += '[' + value + ']'; return this`. -/
def CssBuilder.attr (value : String) (b : CssBuilder) : CssResult :=
  match b.checkType 4 with
  | .error e => .error e
  | .ok b => .ok { b with el := { b.el with attr := b.el.attr ++ "[" ++ value ++ "]" } }

/-- Source `pseudoClass(value)`: `checkType(5); this.el.pseudoClass += ':' + value`. -/
def CssBuilder.pseudoClass (value : String) (b : CssBuilder) : CssResult :=
  match b.checkType 5 with
  | .error e => .error e
  | .ok b => .ok { b with el := { b.el with pseudoClass := b.el.pseudoClass ++ ":" ++ value } }

/-- Source `pseudoElement(value)`: `checkType(6); this.el.pseudoElement += '::' + value`. -/
def CssBuilder.pseudoElement (value : String) (b : CssBuilder) : CssResult :=
  match b.checkType 6 with
  | .error e => .error e
  | .ok b => .ok { b with el := { b.el with pseudoElement := b.el.pseudoElement ++ "::" ++ value } }

/-- Source `stringify()`: if `this.combinedString` is truthy (a non-empty string),
return it and clear it; otherwise return the join of the six `el` fields and
clear all of them.  Returns the string result together with the updated
receiver. -/
def CssBuilder.stringify (b : CssBuilder) : String × CssBuilder :=
  if b.combinedString ≠ "" then
    (b.combinedString, { b with combinedString := "" })
  else
    (b.el.join, { b with el := El.empty })

/-- Source `combine(selector1, combinator, selector2)`: evaluates
`${selector1.stringify()} ${combinator} ${selector2.stringify()}` (mutating
both operands) and stores it in `this.combinedString`.  Returns the updated
receiver together with the updated operands. -/
def CssBuilder.combine (b selector1 : CssBuilder) (combinator : String)
    (selector2 : CssBuilder) : CssBuilder × CssBuilder × CssBuilder :=
  let r1 := selector1.stringify
  let r2 := selector2.stringify
  ({ b with combinedString := r1.1 ++ " " ++ combinator ++ " " ++ r2.1 },
   r1.2, r2.2)

/-- Facade `cssSelectorBuilder.element`: `new CssBuilder().element(val)`. -/
def cssSelectorBuilder.element (val : String) : CssResult :=
  CssBuilder.init.element val

/-- Facade `cssSelectorBuilder.id`. -/
def cssSelectorBuilder.id (val : String) : CssResult :=
  CssBuilder.init.id val

/-- Facade `cssSelectorBuilder.class`. -/
def cssSelectorBuilder.«class» (val : String) : CssResult :=
  CssBuilder.init.«class» val

/-- Facade `cssSelectorBuilder.attr`. -/
def cssSelectorBuilder.attr (val : String) : CssResult :=
  CssBuilder.init.attr val

/-- Facade `cssSelectorBuilder.pseudoClass`. -/
def cssSelectorBuilder.pseudoClass (val : String) : CssResult :=
  CssBuilder.init.pseudoClass val

/-- Facade `cssSelectorBuilder.pseudoElement`. -/
def cssSelectorBuilder.pseudoElement (val : String) : CssResult :=
  CssBuilder.init.pseudoElement val

/-- Facade `cssSelectorBuilder.combine`: `new CssBuilder().combine(...)`. -/
def cssSelectorBuilder.combine (string1 : CssBuilder) (combinator : String)
    (string2 : CssBuilder) : CssBuilder × CssBuilder × CssBuilder :=
  CssBuilder.init.combine string1 combinator string2

/-- One category call, tagged by which method is invoked and with which
argument.  Used to reason about arbitrary sequences of category calls. -/
inductive Call where
  | element (value : String)
  | id (value : String)
  | «class» (value : String)
  | attr (value : String)
  | pseudoClass (value : String)
  | pseudoElement (value : String)
deriving DecidableEq, Repr

/-- The fixed rank each method passes to `checkType`. -/
def Call.rank : Call → Nat
  | .element _ => 1
  | .id _ => 2
  | .«class» _ => 3
  | .attr _ => 4
  | .pseudoClass _ => 5
  | .pseudoElement _ => 6

/-- Dispatch a category call to the corresponding method. -/
def Call.apply (c : Call) (b : CssBuilder) : CssResult :=
  match c with
  | .element v => b.element v
  | .id v => b.id v
  | .«class» v => b.«class» v
  | .attr v => b.attr v
  | .pseudoClass v => b.pseudoClass v
  | .pseudoElement v => b.pseudoElement v

/-- The field write a call performs on `this.el` once `checkType` passed:
`element` and `id` assign, the other four append. -/
def Call.applyEl (c : Call) (e : El) : El :=
  match c with
  | .element v => { e with tag := v }
  | .id v => { e with id := "#" ++ v }
  | .«class» v => { e with «class» := e.«class» ++ "." ++ v }
  | .attr v => { e with attr := e.attr ++ "[" ++ v ++ "]" }
  | .pseudoClass v => { e with pseudoClass := e.pseudoClass ++ ":" ++ v }
  | .pseudoElement v => { e with pseudoElement := e.pseudoElement ++ "::" ++ v }

/-- Run a sequence of category calls, stopping at the first thrown error. -/
def runCalls (cs : List Call) (b : CssBuilder) : CssResult :=
  match cs with
  | [] => .ok b
  | c :: rest =>
    match c.apply b with
    | .ok b' => runCalls rest b'
    | .error e => .error e

/-! ### Basic lemmas about the embedded operations -/

theorem El.join_empty : El.empty.join = "" := rfl

/-- On a non-combined builder (empty `combinedString`, i.e. falsy in JS),
`stringify` returns the join of the `el` fields and clears them. -/
theorem CssBuilder.stringify_not_combined (b : CssBuilder)
    (h : b.combinedString = "") :
    b.stringify = (b.el.join, { b with el := El.empty }) := by
  unfold CssBuilder.stringify
  simp [h]

/-- On a combined builder, `stringify` returns `combinedString` and clears it. -/
theorem CssBuilder.stringify_combined (b : CssBuilder)
    (h : b.combinedString ≠ "") :
    b.stringify = (b.combinedString, { b with combinedString := "" }) := by
  unfold CssBuilder.stringify
  simp [h]

/-- Every category method is `checkType` at its rank followed by its field
write on `this.el`. -/
theorem Call.apply_eq_checkType (c : Call) (b : CssBuilder) :
    c.apply b =
      match b.checkType c.rank with
      | .error e => .error e
      | .ok b1 => .ok { b1 with el := c.applyEl b1.el } := by
  cases c <;> rfl

/-- Full characterization of one category call in terms of the current rank
tracker `this.type` and the call's fixed rank. -/
theorem Call.apply_char (c : Call) (b : CssBuilder) :
    c.apply b =
      if c.rank < b.type then .error (.orderError, b)
      else if c.rank = b.type ∧ (c.rank = 1 ∨ c.rank = 2 ∨ c.rank = 6) then
        .error (.uniqueError, b)
      else .ok { b with type := c.rank, el := c.applyEl b.el } := by
  rw [Call.apply_eq_checkType]
  unfold CssBuilder.checkType
  by_cases h1 : c.rank < b.type
  · simp [h1]
  · by_cases h2 : c.rank = b.type ∧ (c.rank = 1 ∨ c.rank = 2 ∨ c.rank = 6)
    · obtain ⟨h2a, h2b⟩ := h2
      have h2c : b.type = 1 ∨ b.type = 2 ∨ b.type = 6 := by omega
      simp [h1, h2a, h2b, h2c]
    · simp [h1, h2]

/-! ### Claim theorems (first group) -/

/-- C2: a category call at fixed rank R on a builder whose last rank is L
throws `orderError` when `R < L`, throws `uniqueError` when `R = L` and
`R ∈ {1, 2, 6}`, and otherwise succeeds, setting the last rank to R and
performing the append/set; in particular repeated calls at ranks 3, 4, 5
succeed, `id('a').id('b')` throws the uniqueness error and
`class('a').id('b')` throws the order error. -/
theorem checkType_rank_rules :
    (∀ (c : Call) (b : CssBuilder),
      c.apply b =
        if c.rank < b.type then .error (.orderError, b)
        else if c.rank = b.type ∧ (c.rank = 1 ∨ c.rank = 2 ∨ c.rank = 6) then
          .error (.uniqueError, b)
        else .ok { b with type := c.rank, el := c.applyEl b.el }) ∧
    (∃ b3 : CssBuilder,
      (cssSelectorBuilder.«class» "a").bind (CssBuilder.«class» "b") = .ok b3) ∧
    (∃ b4 : CssBuilder,
      (cssSelectorBuilder.attr "a").bind (CssBuilder.attr "b") = .ok b4) ∧
    (∃ b5 : CssBuilder,
      (cssSelectorBuilder.pseudoClass "a").bind (CssBuilder.pseudoClass "b") = .ok b5) ∧
    (∃ bu : CssBuilder,
      (cssSelectorBuilder.id "a").bind (CssBuilder.id "b") =
        .error (.uniqueError, bu)) ∧
    (∃ bo : CssBuilder,
      (cssSelectorBuilder.«class» "a").bind (CssBuilder.id "b") =
        .error (.orderError, bo)) :=
  ⟨Call.apply_char, ⟨_, rfl⟩, ⟨_, rfl⟩, ⟨_, rfl⟩, ⟨_, rfl⟩, ⟨_, rfl⟩⟩

/-- C6: the order/uniqueness errors are raised synchronously at the offending
category call — whether a call throws is decided there, from the call's rank
and the builder's current rank tracker alone (in this embedding `stringify`
is a total function and cannot fail) — and a call that throws leaves the
builder's accumulated state exactly as it was: the error carries the
receiver's state at the throw site, which equals the entry state (no
append/set, no rank update). -/
theorem error_raised_at_call_state_unchanged :
    (∀ (c : Call) (b b' : CssBuilder) (e : CssError),
      c.apply b = .error (e, b') → b' = b) ∧
    (∀ (c : Call) (b : CssBuilder),
      (∃ e b', c.apply b = .error (e, b')) ↔
        (c.rank < b.type ∨
          (c.rank = b.type ∧ (c.rank = 1 ∨ c.rank = 2 ∨ c.rank = 6)))) := by
  constructor
  · intro c b b' e h
    rw [Call.apply_char] at h
    split at h
    · rw [Except.error.injEq, Prod.mk.injEq] at h
      exact h.2.symm
    · split at h
      · rw [Except.error.injEq, Prod.mk.injEq] at h
        exact h.2.symm
      · exact absurd h (by simp)
  · intro c b
    rw [Call.apply_char]
    by_cases h1 : c.rank < b.type
    · simp [h1]
    · by_cases h2 : c.rank = b.type ∧ (c.rank = 1 ∨ c.rank = 2 ∨ c.rank = 6)
      · obtain ⟨h2a, h2b⟩ := h2
        have h2c : b.type = 1 ∨ b.type = 2 ∨ b.type = 6 := by omega
        simp [h1, h2a, h2b, h2c]
      · simp [h1, h2]

/-- C6 witness: at the concrete input `class('a')` then `id('b')`, the call
throws and the state carried by the error is the pre-call state. -/
theorem error_raised_at_call_state_unchanged_witness :
    ∃ b : CssBuilder, (Call.id "b").apply b =
      .error (.orderError, b) ∧ b = b := by
  refine ⟨{ el := { El.empty with «class» := ".a" }, type := 3,
            combinedString := "" }, rfl, ?_⟩
  exact error_raised_at_call_state_unchanged.1 (Call.id "b") _ _ .orderError rfl

/-- C7: the two concrete chains from the spec render as stated. -/
theorem concrete_chain_examples :
    (∃ b : CssBuilder,
      (((((cssSelectorBuilder.element "div").bind (CssBuilder.id "test")).bind
        (CssBuilder.«class» "myClass")).bind (CssBuilder.attr "href")).bind
        (CssBuilder.pseudoClass "focus")).bind (CssBuilder.pseudoElement "after") =
          .ok b ∧
      b.stringify.1 = "div#test.myClass[href]:focus::after") ∧
    (∃ b : CssBuilder,
      ((cssSelectorBuilder.element "a").bind
        (CssBuilder.attr "href$=\".png\"")).bind (CssBuilder.pseudoClass "focus") =
          .ok b ∧
      b.stringify.1 = "a[href$=\".png\"]:focus") :=
  ⟨⟨_, rfl, rfl⟩, ⟨_, rfl, rfl⟩⟩

/-- C8: `Rectangle(width, height)` yields an object whose `width` and
`height` fields are the arguments and whose `getArea()` returns their
product. -/
theorem rectangle_fields_and_area :
    ∀ (w h : Int), (Rectangle w h).width = w ∧ (Rectangle w h).height = h ∧
      (Rectangle w h).getArea = w * h :=
  fun _ _ => ⟨rfl, rfl, rfl⟩

/-- The string stored by `combine` is never empty: it contains the two
padding spaces. -/
theorem append_spaces_ne_empty (r1 c r2 : String) :
    r1 ++ " " ++ c ++ " " ++ r2 ≠ "" := by
  intro h
  have h' := congrArg String.length h
  have hsp : (" " : String).length = 1 := rfl
  have hem : ("" : String).length = 0 := rfl
  simp only [String.length_append, hsp, hem] at h'
  omega

/-- A `combine` followed by `stringify` yields the interpolated string. -/
theorem combine_stringify_fst (b A B : CssBuilder) (c : String) :
    ((b.combine A c B).1.stringify).1 =
      A.stringify.1 ++ " " ++ c ++ " " ++ B.stringify.1 := by
  show ({ b with combinedString :=
      A.stringify.1 ++ " " ++ c ++ " " ++ B.stringify.1 } : CssBuilder).stringify.1 = _
  rw [CssBuilder.stringify_combined _ (append_spaces_ne_empty _ _ _)]

theorem space_append_space : (" " : String) ++ " " = "  " := rfl

/-- Rendering a freshly rendered non-combined builder yields `''`. -/
theorem CssBuilder.stringify_stringify (b : CssBuilder)
    (h : b.combinedString = "") : ((b.stringify).2.stringify).1 = "" := by
  simp [CssBuilder.stringify, h, El.join, El.empty]

/-- Concrete builder: state after `element('div')`. -/
def exampleDiv : CssBuilder :=
  { el := { El.empty with tag := "div" }, type := 1, combinedString := "" }

/-- Concrete builder: state after `element('span')`. -/
def exampleSpan : CssBuilder :=
  { el := { El.empty with tag := "span" }, type := 1, combinedString := "" }

/-- Concrete builder: state after `pseudoClass('focus')`. -/
def exampleFocus : CssBuilder :=
  { el := { El.empty with pseudoClass := ":focus" }, type := 5,
    combinedString := "" }

/-- Concrete builder: state after `class('a')`. -/
def exampleClassA : CssBuilder :=
  { el := { El.empty with «class» := ".a" }, type := 3, combinedString := "" }

/-! ### Claim theorems (second group) -/

/-- C3: for all builders `A`, `B` and any combinator string `c`,
`combine(A, c, B).stringify()` equals `A`'s rendering, `' ' + c + ' '`, and
`B`'s rendering concatenated; this composes recursively (a combined builder
can itself be an operand of a further `combine`), and the concrete example
`combine(element('div').id('main'), '+', element('table').id('data'))`
renders `'div#main + table#data'`. -/
theorem combine_renders_concatenation :
    (∀ (A B : CssBuilder) (c : String),
      ((CssBuilder.init.combine A c B).1.stringify).1 =
        A.stringify.1 ++ " " ++ c ++ " " ++ B.stringify.1) ∧
    (∀ (X Y Z : CssBuilder) (c1 c2 : String),
      ((CssBuilder.init.combine (CssBuilder.init.combine X c1 Y).1 c2 Z).1.stringify).1 =
        (X.stringify.1 ++ " " ++ c1 ++ " " ++ Y.stringify.1) ++ " " ++ c2 ++ " " ++
          Z.stringify.1) ∧
    (∃ A B : CssBuilder,
      (cssSelectorBuilder.element "div").bind (CssBuilder.id "main") = .ok A ∧
      (cssSelectorBuilder.element "table").bind (CssBuilder.id "data") = .ok B ∧
      ((cssSelectorBuilder.combine A "+" B).1.stringify).1 = "div#main + table#data") := by
  refine ⟨fun A B c => combine_stringify_fst _ A B c, fun X Y Z c1 c2 => ?_, ?_⟩
  · rw [combine_stringify_fst, combine_stringify_fst]
  · exact ⟨_, _, rfl, rfl, rfl⟩

/-- C4: a combined selector is rendered with exactly one space on each side
of the combinator token whatever the combinator string is, and with the
descendant combinator `' '` the rendering places a double space `'  '`
between the operand renderings (three spaces in total, which contain the
double-space artifact). -/
theorem combine_single_space_padding :
    (∀ (A B : CssBuilder) (c : String),
      (CssBuilder.init.combine A c B).1.combinedString =
        A.stringify.1 ++ " " ++ c ++ " " ++ B.stringify.1) ∧
    (∀ (A B : CssBuilder),
      ((CssBuilder.init.combine A " " B).1.stringify).1 =
        (A.stringify.1 ++ " ") ++ "  " ++ B.stringify.1) := by
  constructor
  · intro A B c
    rfl
  · intro A B
    rw [combine_stringify_fst]
    have key : ∀ x : String, (x ++ " ") ++ " " = x ++ "  " := fun x => by
      rw [String.append_assoc, space_append_space]
    rw [key (A.stringify.1 ++ " ")]

/-- C5: after one `stringify()` call on a non-combined builder every
per-category field is cleared, so a second `stringify()` on the same
instance returns `''`. -/
theorem stringify_resets_noncombined (b : CssBuilder)
    (h : b.combinedString = "") :
    (b.stringify).2.el = El.empty ∧ ((b.stringify).2.stringify).1 = "" := by
  refine ⟨?_, CssBuilder.stringify_stringify b h⟩
  rw [CssBuilder.stringify_not_combined b h]

/-- C5 witness: a concrete non-combined builder stringifies to `''` the
second time. -/
theorem stringify_resets_noncombined_witness :
    exampleDiv.combinedString = "" ∧
    ((exampleDiv.stringify).2.stringify).1 = "" :=
  ⟨rfl, (stringify_resets_noncombined exampleDiv rfl).2⟩

/-- C9: `stringify()` on a non-combined builder clears only the six
per-category fields — the rank tracker `this.type` (and `combinedString`)
are unchanged — so any later category call with rank strictly below the
pre-render rank still throws the order error: the instance is not reusable
from a fully empty state. -/
theorem stringify_keeps_rank_tracker (b : CssBuilder)
    (h : b.combinedString = "") :
    (b.stringify).2.type = b.type ∧ (b.stringify).2.el = El.empty ∧
    (b.stringify).2.combinedString = b.combinedString ∧
    ∀ c : Call, c.rank < b.type →
      c.apply (b.stringify).2 = .error (.orderError, (b.stringify).2) := by
  rw [CssBuilder.stringify_not_combined b h]
  refine ⟨rfl, rfl, rfl, fun c hc => ?_⟩
  rw [Call.apply_char]
  rw [if_pos (show c.rank < ({ b with el := El.empty } : CssBuilder).type from hc)]

/-- C9 witness: a builder that last appended at rank 5, once rendered,
still rejects an `id` call (rank 2) with the order error. -/
theorem stringify_keeps_rank_tracker_witness :
    exampleFocus.combinedString = "" ∧
    (Call.id "x").rank < exampleFocus.type ∧
    (Call.id "x").apply (exampleFocus.stringify).2 =
      .error (.orderError, (exampleFocus.stringify).2) :=
  ⟨rfl, by decide,
    (stringify_keeps_rank_tracker exampleFocus rfl).2.2.2 (Call.id "x") (by decide)⟩

/-- C10: `combine(A, c, B)` eagerly renders — and thereby resets — both
operand builders: afterwards each operand stringifies to `''`, while the
combined rendering is stored only on the new builder returned by
`combine`. -/
theorem combine_consumes_operands (A B : CssBuilder) (c : String)
    (hA : A.combinedString = "") (hB : B.combinedString = "") :
    ((CssBuilder.init.combine A c B).2.1.stringify).1 = "" ∧
    ((CssBuilder.init.combine A c B).2.2.stringify).1 = "" ∧
    (CssBuilder.init.combine A c B).1.combinedString =
      A.stringify.1 ++ " " ++ c ++ " " ++ B.stringify.1 := by
  refine ⟨?_, ?_, rfl⟩
  · show ((A.stringify).2.stringify).1 = ""
    exact CssBuilder.stringify_stringify A hA
  · show ((B.stringify).2.stringify).1 = ""
    exact CssBuilder.stringify_stringify B hB

/-- C10 witness: combining two concrete one-part builders leaves both
operands rendering `''` afterwards. -/
theorem combine_consumes_operands_witness :
    exampleDiv.combinedString = "" ∧ exampleSpan.combinedString = "" ∧
    ((CssBuilder.init.combine exampleDiv "+" exampleSpan).2.1.stringify).1 = "" ∧
    ((CssBuilder.init.combine exampleDiv "+" exampleSpan).2.2.stringify).1 = "" :=
  ⟨rfl, rfl, (combine_consumes_operands exampleDiv exampleSpan "+" rfl rfl).1,
    (combine_consumes_operands exampleDiv exampleSpan "+" rfl rfl).2.1⟩

/-! ### Rendering of arbitrary valid call sequences (claim C1) -/

/-- The prefixed string a category call contributes to the rendered
selector (`tag`, `'#' + id`, `'.' + class`, `'[' + attr + ']'`,
`':' + pseudoClass`, `'::' + pseudoElement`). -/
def Call.partStr : Call → String
  | .element v => v
  | .id v => "#" ++ v
  | .«class» v => "." ++ v
  | .attr v => "[" ++ v ++ "]"
  | .pseudoClass v => ":" ++ v
  | .pseudoElement v => "::" ++ v

/-- Concatenation of a list of strings with no separator. -/
def joinAll : List String → String
  | [] => ""
  | s :: rest => s ++ joinAll rest

/-- The contributions of the calls of rank `r`, in call (insertion) order. -/
def partsOf (r : Nat) (cs : List Call) : List String :=
  (cs.filter fun c => c.rank == r).map Call.partStr

/-- The rendering the claim asserts: the supplied parts concatenated with no
separator, grouped in the fixed category order. -/
def renderSpec (cs : List Call) : String :=
  joinAll (partsOf 1 cs) ++ joinAll (partsOf 2 cs) ++ joinAll (partsOf 3 cs) ++
    joinAll (partsOf 4 cs) ++ joinAll (partsOf 5 cs) ++ joinAll (partsOf 6 cs)

/-- The `el` record after the field writes of a call sequence. -/
def elAfter (e : El) : List Call → El
  | [] => e
  | c :: rest => elAfter (c.applyEl e) rest

/-- The rank tracker after a call sequence: the last call's rank. -/
def lastRank (t : Nat) : List Call → Nat
  | [] => t
  | c :: rest => lastRank c.rank rest

/-- One step of the ordering/uniqueness discipline does not throw: the new
rank is at least the current one, and on equality it is not a
single-occurrence rank. -/
def okStep (t r : Nat) : Prop :=
  t ≤ r ∧ (r = t → ¬(r = 1 ∨ r = 2 ∨ r = 6))

/-- The whole sequence respects the discipline, starting from tracker
value `t`. -/
def ValidFrom : Nat → List Call → Prop
  | _, [] => True
  | t, c :: rest => okStep t c.rank ∧ ValidFrom c.rank rest

/-- A call passing the discipline succeeds and performs its write. -/
theorem apply_ok_of_okStep (c : Call) (b : CssBuilder)
    (h : okStep b.type c.rank) :
    c.apply b = .ok { b with type := c.rank, el := c.applyEl b.el } := by
  obtain ⟨h1, h2⟩ := h
  rw [Call.apply_char, if_neg (by omega), if_neg]
  rintro ⟨he, hr⟩
  exact h2 he hr

/-- The builder state after a valid call sequence: the fold of the per-call
field writes, with the last rank as tracker. -/
def afterState (b : CssBuilder) (cs : List Call) : CssBuilder :=
  { el := elAfter b.el cs, type := lastRank b.type cs,
    combinedString := b.combinedString }

/-- Running a valid call sequence succeeds with the folded state. -/
theorem runCalls_eq_of_valid (cs : List Call) (b : CssBuilder)
    (h : ValidFrom b.type cs) :
    runCalls cs b = .ok (afterState b cs) := by
  induction cs generalizing b with
  | nil => rfl
  | cons c rest ih =>
    obtain ⟨hstep, hrest⟩ := h
    simp only [runCalls, apply_ok_of_okStep c b hstep]
    exact ih _ hrest

/-- The `class` method accumulates its dot-prefixed contributions in call order. -/
theorem elAfter_class (cs : List Call) (e : El) :
    (elAfter e cs).«class» = e.«class» ++ joinAll (partsOf 3 cs) := by
  induction cs generalizing e with
  | nil => simp [elAfter, partsOf, joinAll]
  | cons c rest ih =>
    cases c <;>
      simp [elAfter, Call.applyEl, partsOf, Call.rank, Call.partStr,
        joinAll, ih, String.append_assoc]

/-- The `attr` method accumulates its bracketed contributions in call order. -/
theorem elAfter_attr (cs : List Call) (e : El) :
    (elAfter e cs).attr = e.attr ++ joinAll (partsOf 4 cs) := by
  induction cs generalizing e with
  | nil => simp [elAfter, partsOf, joinAll]
  | cons c rest ih =>
    cases c <;>
      simp [elAfter, Call.applyEl, partsOf, Call.rank, Call.partStr,
        joinAll, ih, String.append_assoc]

/-- The `pseudoClass` method accumulates its colon-prefixed contributions in call
order. -/
theorem elAfter_pseudoClass (cs : List Call) (e : El) :
    (elAfter e cs).pseudoClass = e.pseudoClass ++ joinAll (partsOf 5 cs) := by
  induction cs generalizing e with
  | nil => simp [elAfter, partsOf, joinAll]
  | cons c rest ih =>
    cases c <;>
      simp [elAfter, Call.applyEl, partsOf, Call.rank, Call.partStr,
        joinAll, ih, String.append_assoc]

/-- The `pseudoElement` method accumulates its `::`-prefixed contributions in call
order (the source method appends with `+=`). -/
theorem elAfter_pseudoElement (cs : List Call) (e : El) :
    (elAfter e cs).pseudoElement =
      e.pseudoElement ++ joinAll (partsOf 6 cs) := by
  induction cs generalizing e with
  | nil => simp [elAfter, partsOf, joinAll]
  | cons c rest ih =>
    cases c <;>
      simp [elAfter, Call.applyEl, partsOf, Call.rank, Call.partStr,
        joinAll, ih, String.append_assoc]

/-- Evaluating `partsOf` on a cons whose head has the selected rank. -/
theorem partsOf_cons_eq (r : Nat) (c : Call) (rest : List Call)
    (h : c.rank = r) :
    partsOf r (c :: rest) = c.partStr :: partsOf r rest := by
  simp [partsOf, List.filter_cons, h]

/-- Evaluating `partsOf` on a cons whose head has a different rank. -/
theorem partsOf_cons_ne (r : Nat) (c : Call) (rest : List Call)
    (h : ¬ c.rank = r) :
    partsOf r (c :: rest) = partsOf r rest := by
  simp [partsOf, List.filter_cons, h]

/-- The `element` method assigns; with at most one `element` call the final `tag`
equals the concatenation of the (zero or one) rank-1 contributions. -/
theorem elAfter_tag (cs : List Call) (e : El)
    (hlen : (partsOf 1 cs).length ≤ 1)
    (h0 : partsOf 1 cs = [] \/ e.tag = "") :
    (elAfter e cs).tag = e.tag ++ joinAll (partsOf 1 cs) := by
  induction cs generalizing e with
  | nil => simp [elAfter, partsOf, joinAll]
  | cons c rest ih =>
    cases c with
    | element v =>
      rw [partsOf_cons_eq 1 (Call.element v) rest rfl] at hlen h0
      have hrest : partsOf 1 rest = [] := by
        rw [List.length_cons] at hlen
        exact List.length_eq_zero.mp (by omega)
      have htag : e.tag = "" := by
        rcases h0 with h0 | h0
        · exact absurd h0 (List.cons_ne_nil _ _)
        · exact h0
      simp only [elAfter, Call.applyEl]
      rw [ih { e with tag := v } (by simp [hrest]) (Or.inl hrest)]
      rw [partsOf_cons_eq 1 (Call.element v) rest rfl, hrest, htag]
      simp [joinAll, Call.partStr]
    | id v =>
      rw [partsOf_cons_ne 1 (Call.id v) rest (by simp [Call.rank])] at hlen h0 ⊢
      simp only [elAfter, Call.applyEl]
      rw [ih { e with id := "#" ++ v } hlen h0]
    | «class» v =>
      rw [partsOf_cons_ne 1 (Call.«class» v) rest (by simp [Call.rank])] at hlen h0 ⊢
      simp only [elAfter, Call.applyEl]
      rw [ih { e with «class» := e.«class» ++ "." ++ v } hlen h0]
    | attr v =>
      rw [partsOf_cons_ne 1 (Call.attr v) rest (by simp [Call.rank])] at hlen h0 ⊢
      simp only [elAfter, Call.applyEl]
      rw [ih { e with attr := e.attr ++ "[" ++ v ++ "]" } hlen h0]
    | pseudoClass v =>
      rw [partsOf_cons_ne 1 (Call.pseudoClass v) rest (by simp [Call.rank])] at hlen h0 ⊢
      simp only [elAfter, Call.applyEl]
      rw [ih { e with pseudoClass := e.pseudoClass ++ ":" ++ v } hlen h0]
    | pseudoElement v =>
      rw [partsOf_cons_ne 1 (Call.pseudoElement v) rest (by simp [Call.rank])] at hlen h0 ⊢
      simp only [elAfter, Call.applyEl]
      rw [ih { e with pseudoElement := e.pseudoElement ++ "::" ++ v } hlen h0]

/-- The `id` method assigns; with at most one `id` call the final `id` field equals the
concatenation of the (zero or one) rank-2 contributions. -/
theorem elAfter_id (cs : List Call) (e : El)
    (hlen : (partsOf 2 cs).length ≤ 1)
    (h0 : partsOf 2 cs = [] \/ e.id = "") :
    (elAfter e cs).id = e.id ++ joinAll (partsOf 2 cs) := by
  induction cs generalizing e with
  | nil => simp [elAfter, partsOf, joinAll]
  | cons c rest ih =>
    cases c with
    | id v =>
      rw [partsOf_cons_eq 2 (Call.id v) rest rfl] at hlen h0
      have hrest : partsOf 2 rest = [] := by
        rw [List.length_cons] at hlen
        exact List.length_eq_zero.mp (by omega)
      have hid : e.id = "" := by
        rcases h0 with h0 | h0
        · exact absurd h0 (List.cons_ne_nil _ _)
        · exact h0
      simp only [elAfter, Call.applyEl]
      rw [ih { e with id := "#" ++ v } (by simp [hrest]) (Or.inl hrest)]
      rw [partsOf_cons_eq 2 (Call.id v) rest rfl, hrest, hid]
      simp [joinAll, Call.partStr]
    | element v =>
      rw [partsOf_cons_ne 2 (Call.element v) rest (by simp [Call.rank])] at hlen h0 ⊢
      simp only [elAfter, Call.applyEl]
      rw [ih { e with tag := v } hlen h0]
    | «class» v =>
      rw [partsOf_cons_ne 2 (Call.«class» v) rest (by simp [Call.rank])] at hlen h0 ⊢
      simp only [elAfter, Call.applyEl]
      rw [ih { e with «class» := e.«class» ++ "." ++ v } hlen h0]
    | attr v =>
      rw [partsOf_cons_ne 2 (Call.attr v) rest (by simp [Call.rank])] at hlen h0 ⊢
      simp only [elAfter, Call.applyEl]
      rw [ih { e with attr := e.attr ++ "[" ++ v ++ "]" } hlen h0]
    | pseudoClass v =>
      rw [partsOf_cons_ne 2 (Call.pseudoClass v) rest (by simp [Call.rank])] at hlen h0 ⊢
      simp only [elAfter, Call.applyEl]
      rw [ih { e with pseudoClass := e.pseudoClass ++ ":" ++ v } hlen h0]
    | pseudoElement v =>
      rw [partsOf_cons_ne 2 (Call.pseudoElement v) rest (by simp [Call.rank])] at hlen h0 ⊢
      simp only [elAfter, Call.applyEl]
      rw [ih { e with pseudoElement := e.pseudoElement ++ "::" ++ v } hlen h0]

/-- The number of calls at rank `r` is the length of their contribution
list. -/
theorem partsOf_length (r : Nat) (cs : List Call) :
    (partsOf r cs).length = cs.countP (fun c => c.rank == r) := by
  simp [partsOf, List.countP_eq_length_filter]

/-- A rank-chained sequence whose single-occurrence ranks are not repeated
(also not equal to the incoming tracker value) satisfies the call-by-call
discipline. -/
theorem validFrom_of_chain (cs : List Call) (t : Nat)
    (hchain : List.Chain (· ≤ ·) t (cs.map Call.rank))
    (huniq : ∀ r, (r = 1 ∨ r = 2 ∨ r = 6) →
      cs.countP (fun c => c.rank == r) + (if t = r then 1 else 0) ≤ 1) :
    ValidFrom t cs := by
  induction cs generalizing t with
  | nil => trivial
  | cons c rest ih =>
    rw [List.map_cons, List.chain_cons] at hchain
    refine ⟨⟨hchain.1, fun he hr => ?_⟩, ih c.rank hchain.2 ?_⟩
    · have h := huniq c.rank hr
      rw [List.countP_cons, if_pos he.symm] at h
      have hb : ((c.rank == c.rank) = true) := by simp
      rw [if_pos hb] at h
      omega
    · intro r hr
      have h := huniq r hr
      rw [List.countP_cons] at h
      by_cases hcr : c.rank = r
      · rw [if_pos hcr]
        have hb : ((c.rank == r) = true) := by simp [hcr]
        rw [if_pos hb] at h
        omega
      · rw [if_neg hcr]
        have hb : ¬((c.rank == r) = true) := by simp [hcr]
        rw [if_neg hb] at h
        omega

/-! ### Claim theorem C1 -/

/-- C1: for every sequence of category calls on one fresh builder whose
ranks are non-decreasing and in which each single-occurrence rank (element,
id, pseudo-element) is used at most once, the run succeeds and `stringify()`
returns the concatenation — in the fixed category order tag, `'#' + id`,
`'.'`-prefixed classes in insertion order, `'[' + attr + ']'` bodies in
insertion order, `':'`-prefixed pseudo-classes in insertion order,
`'::' + pseudoElement` — of exactly the supplied parts with no separator
(`renderSpec`), which is `''` when the sequence is empty. -/
theorem stringify_renders_fixed_category_order (cs : List Call)
    (hmono : List.Chain' (· ≤ ·) (cs.map Call.rank))
    (huniq : ∀ r, (r = 1 ∨ r = 2 ∨ r = 6) →
      cs.countP (fun c => c.rank == r) ≤ 1) :
    ∃ b : CssBuilder, runCalls cs CssBuilder.init = .ok b ∧
      b.stringify.1 = renderSpec cs := by
  have hvalid : ValidFrom CssBuilder.init.type cs := by
    apply validFrom_of_chain
    · cases cs with
      | nil => exact List.Chain.nil
      | cons c rest =>
        rw [List.map_cons]
        exact List.Chain.cons (Nat.zero_le _) hmono
    · intro r hr
      have h := huniq r hr
      have h0 : (if CssBuilder.init.type = r then 1 else 0) = 0 := by
        rcases hr with rfl | rfl | rfl <;> rfl
      rw [h0]
      omega
  refine ⟨afterState CssBuilder.init cs,
    runCalls_eq_of_valid cs CssBuilder.init hvalid, ?_⟩
  rw [CssBuilder.stringify_not_combined _ rfl]
  show (elAfter El.empty cs).join = renderSpec cs
  have hlen1 : (partsOf 1 cs).length ≤ 1 := by
    rw [partsOf_length]
    exact huniq 1 (Or.inl rfl)
  have hlen2 : (partsOf 2 cs).length ≤ 1 := by
    rw [partsOf_length]
    exact huniq 2 (Or.inr (Or.inl rfl))
  unfold El.join renderSpec
  rw [elAfter_tag cs El.empty hlen1 (Or.inr rfl),
    elAfter_id cs El.empty hlen2 (Or.inr rfl), elAfter_class, elAfter_attr,
    elAfter_pseudoClass, elAfter_pseudoElement]
  simp [El.empty]

/-- C1 witness: a concrete valid sequence (ranks 1, 2, 3, 3, 6) runs
successfully and renders as the spec-side concatenation. -/
theorem stringify_renders_fixed_category_order_witness :
    ∃ b : CssBuilder,
      runCalls [Call.element "div", Call.id "test", Call.«class» "a",
        Call.«class» "b", Call.pseudoElement "after"] CssBuilder.init = .ok b ∧
      b.stringify.1 = renderSpec [Call.element "div", Call.id "test",
        Call.«class» "a", Call.«class» "b", Call.pseudoElement "after"] :=
  stringify_renders_fixed_category_order _
    (by simp [List.chain'_cons, Call.rank])
    (by intro r hr; rcases hr with rfl | rfl | rfl <;> decide)

end CoreJs
